import Mathlib

/-!
SCS servo scripts: a shallow embedding.

Embedding of the Feetech/SCS serial-packet logic and the control-loop
arithmetic of the `custom_configs` and `custom_scripts` diagnostic scripts
(leader/follower SO-101 arms, STS3215 servos).  Bytes are modelled as `Nat`
(Python integers), Python `%` on possibly negative operands as `Int.emod`,
and the float arithmetic of the smoothing loop as exact rationals.
-/

namespace LeRobot

/-- The checksum written as `0xFF - ((...) % 256)` in the scripts
(`direct_motor_ping.test_motor_ping`, `direct_reset_follower_motors`,
`so101_direct_teleoperation`). The argument is the sum the script feeds it. -/
def scs_checksum (total : Nat) : Nat := 0xFF - total % 256

/-- The checksum written as `(~checksum) & 0xFF` in Python
(`follower_arm_controller`, `leader_protocol_test` protocol 1): bitwise
complement of a nonnegative int, masked to 8 bits, i.e. `(-total - 1) mod 256`
with Python's nonnegative `mod`. -/
def py_inv_byte (total : Nat) : Nat := (((-(total : Int)) - 1) % 256).toNat

/-- The property of claim C1 for a packet `[0xFF, 0xFF, id, length,
instruction, params…, checksum]`: the bytes after the two-byte header sum to
`0xFF` modulo 256. -/
def checksum_ok (packet : List Nat) : Prop := (packet.drop 2).sum % 256 = 0xFF

instance (packet : List Nat) : Decidable (checksum_ok packet) := by
  unfold checksum_ok; infer_instance

/-- `test_motor_ping` (direct_motor_ping.py lines 18-19), `ping_motor`
(direct_reset_follower_motors.py lines 133-134), `ping_all_motors`
(so101_direct_teleoperation.py lines 340-341):
`bytearray([0xFF, 0xFF, motor_id, 0x02, 0x01, checksum])` with
`checksum = 0xFF - ((motor_id + 0x02 + 0x01) % 256)`. -/
def ping_packet (motor_id : Nat) : List Nat :=
  [0xFF, 0xFF, motor_id, 0x02, 0x01, scs_checksum (motor_id + 0x02 + 0x01)]

/-- `read_word` (direct_reset_follower_motors.py lines 110-111):
`[0xFF, 0xFF, motor_id, 0x04, 0x02, address, length, checksum]` with
`checksum = 0xFF - ((motor_id + 0x04 + 0x02 + address + length) % 256)`. -/
def read_word_packet (motor_id address length : Nat) : List Nat :=
  [0xFF, 0xFF, motor_id, 0x04, 0x02, address, length,
    scs_checksum (motor_id + 0x04 + 0x02 + address + length)]

/-- `write_byte` (direct_reset_follower_motors.py lines 70-71). -/
def write_byte_packet (motor_id address value : Nat) : List Nat :=
  [0xFF, 0xFF, motor_id, 0x04, 0x03, address, value,
    scs_checksum (motor_id + 0x04 + 0x03 + address + value)]

/-- `write_word` (direct_reset_follower_motors.py lines 86-93): the value is
split into `value_l = value & 0xFF` and `value_h = (value >> 8) & 0xFF`. -/
def write_word_packet (motor_id address value : Nat) : List Nat :=
  let value_l := value &&& 0xFF
  let value_h := (value >>> 8) &&& 0xFF
  [0xFF, 0xFF, motor_id, 0x05, 0x03, address, value_l, value_h,
    scs_checksum (motor_id + 0x05 + 0x03 + address + value_l + value_h)]

/-- `FollowerArmController.set_position` (follower_arm_controller.py line
118): `position = max(0, min(4095, position))`. -/
def set_position_clamp (position : Int) : Int := max 0 (min 4095 position)

/-- `FollowerArmController.set_position` (follower_arm_controller.py lines
120-125): builds `[0xFF, 0xFF, motor_id, 0x05, 0x03, 42, position & 0xFF,
(position >> 8) & 0xFF]` for the clamped position, then sums
`write_packet[2:-1]` — the slice of the not-yet-extended packet, which drops
the final parameter byte — and appends `(~checksum) & 0xFF`. -/
def set_position_packet (motor_id : Nat) (position : Int) : List Nat :=
  let p := (set_position_clamp position).toNat
  let write_packet := [0xFF, 0xFF, motor_id, 0x05, 0x03, 42,
    p &&& 0xFF, (p >>> 8) &&& 0xFF]
  write_packet ++ [py_inv_byte (((write_packet.drop 2).dropLast).sum)]

/-- `test_protocol` (leader_protocol_test.py lines 36-42), "Protocol 1
(Alternative format)": starts from `[0xFF, 0xFF, motor_id, 0x02, 0x01, 0x00]`,
sums `ping_packet[2:-1]` and overwrites the last byte with
`(~checksum) & 0xFF`. -/
def protocol1_ping_packet (motor_id : Nat) : List Nat :=
  let ping_packet0 : List Nat := [0xFF, 0xFF, motor_id, 0x02, 0x01, 0x00]
  let checksum := ((ping_packet0.drop 2).dropLast).sum
  ping_packet0.dropLast ++ [py_inv_byte checksum]

/-- The generic SCS encoder (spec §4.1): `[0xFF, 0xFF, id, length,
instruction, …params, checksum]` with `length = len(params) + 2` and
`checksum = 0xFF - ((id + length + instruction + sum(params)) mod 256)`.
Every well-formed packet the scripts build is an instance of this shape. -/
def encode (motor_id instruction : Nat) (params : List Nat) : List Nat :=
  let length := params.length + 2
  [0xFF, 0xFF, motor_id, length, instruction] ++ params ++
    [scs_checksum (motor_id + length + instruction + params.sum)]

/-- Modelled from the spec: §4.1 "Decode(bytes) → validates header
`0xFF 0xFF`, echoed id, extracts parameter bytes".  No script defines a
standalone decoder; the reply parsing inlined in `read_word`
(direct_reset_follower_motors.py lines 118-123) checks the `0xFF 0xFF`
header and the echoed id and then reads the parameter bytes, exactly this
shape.  The parameter count is `length - 2` (length counts the params plus
the instruction/error byte and the checksum byte). -/
def decode (bytes : List Nat) : Option (Nat × Nat × List Nat) :=
  match bytes with
  | b0 :: b1 :: motor_id :: length :: instruction :: rest =>
    if b0 = 0xFF ∧ b1 = 0xFF ∧ 2 ≤ length ∧ rest.length = length - 1 then
      some (motor_id, instruction, rest.take (length - 2))
    else
      none
  | _ => none

/-- Spec §8 "valid (id, instruction, params)": every field fits in one byte
and the length byte `len(params) + 2` does too. -/
def valid_fields (motor_id instruction : Nat) (params : List Nat) : Prop :=
  motor_id < 256 ∧ instruction < 256 ∧ (∀ b ∈ params, b < 256) ∧
    params.length + 2 < 256

/-- `write_word` (direct_reset_follower_motors.py line 87): `value & 0xFF`. -/
def word_low (value : Nat) : Nat := value &&& 0xFF

/-- `write_word` (direct_reset_follower_motors.py line 88):
`(value >> 8) & 0xFF`. -/
def word_high (value : Nat) : Nat := (value >>> 8) &&& 0xFF

/-- `read_word` (direct_reset_follower_motors.py line 122) and
`test_follower_arm` (so101_direct_teleoperation.py line 430):
`(value_h << 8) + value_l`. -/
def word_reassemble (value_h value_l : Nat) : Nat := (value_h <<< 8) + value_l

/- ## Ping-reply recognition -/

/-- The reply check repeated in `ping_motor` (direct_reset_follower_motors.py
line 143), `ping_all_motors` (so101_direct_teleoperation.py line 348),
`test_motor_ping` (direct_motor_ping.py line 29) and
`FollowerArmController.ping_motors` (follower_arm_controller.py line 63):
`len(response) >= 6 and response[0] == 0xFF and response[1] == 0xFF and
response[2] == motor_id` (short-circuiting, so the indexing is guarded by the
length test). -/
def ping_reply_valid (response : List Nat) (motor_id : Nat) : Bool :=
  decide (6 ≤ response.length) && (response.getD 0 0 == 0xFF) &&
    (response.getD 1 0 == 0xFF) && (response.getD 2 0 == motor_id)

/-- `test_protocol` (leader_protocol_test.py lines 59-61): the "Simplified
check" that reports SUCCESS for a pinged motor — `if len(response) > 0`. -/
def protocol_test_response_success (response : List Nat) : Bool :=
  decide (0 < response.length)

/-- Claim C2's acceptance criterion, stated from the spec's words: the
sequence starts with `0xFF 0xFF`, its 3rd byte equals the queried id, and its
length is at least 6. -/
def spec_valid_ping_reply (response : List Nat) (motor_id : Nat) : Prop :=
  response.take 2 = [0xFF, 0xFF] ∧ response.getD 2 0 = motor_id ∧
    6 ≤ response.length

instance (response : List Nat) (motor_id : Nat) :
    Decidable (spec_valid_ping_reply response motor_id) := by
  unfold spec_valid_ping_reply; infer_instance

/- ## Goal-position range arithmetic -/

/-- `set_follower_positions`, SDK fallback branch
(so101_direct_teleoperation.py line 245): `max(0, min(4095, int(position)))`. -/
def sdk_safe_position (position : Int) : Int := max 0 (min 4095 position)

/-- The teleoperation loop's leader→follower mapping
(so101_direct_teleoperation.py line 623): `(int(pos) + offset) % 4096`, with
Python's nonnegative `%` on ints, i.e. `Int.emod`. -/
def follower_target (position offset : Int) : Int := (position + offset) % 4096

/- ## Exponential moving average smoothing -/

/-- so101_direct_teleoperation.py line 608: `alpha = 0.2`. -/
def alpha_direct : ℚ := 0.2

/-- so101_teleoperation.py line 187: `alpha = 0.3`. -/
def alpha_sdk : ℚ := 0.3

/-- The smoothing update of both teleoperation loops
(so101_direct_teleoperation.py lines 609-612, so101_teleoperation.py line
188): `[alpha * current + (1 - alpha) * smoothed for current, smoothed in
zip(current_positions, smoothed_positions)]`, with the float arithmetic
modelled exactly over `ℚ`. -/
def smooth_step (alpha : ℚ) (current smoothed : List ℚ) : List ℚ :=
  (current.zip smoothed).map fun cs => alpha * cs.1 + (1 - alpha) * cs.2

/- ## The keyboard-thread lock discipline -/

/-- Whether a statement reads or writes the shared flag. -/
inductive AccessKind where
  | read
  | write
deriving DecidableEq

/-- One step of a loop body, as far as the shared `teleoperation_active` flag
and the shared `lock` are concerned: entering or leaving a `with lock:` block,
or touching the flag at a given source line. -/
inductive LockStep where
  | acquire
  | release
  | access (kind : AccessKind) (line : Nat)
deriving DecidableEq

/-- The body of `monitor_keyboard_input` (so101_direct_teleoperation.py lines
511-546), restricted to `lock` and `teleoperation_active`: the SPACE branch
enters `with lock:` (line 517), reads and writes the flag in
`teleoperation_active = not teleoperation_active` (line 518), reads it again
for the status message (line 519), and leaves the block.  No other branch of
the thread touches the flag. -/
def keyboard_loop_steps : List LockStep :=
  [.acquire, .access .read 518, .access .write 518, .access .read 519,
    .release]

/-- The body of `main`'s control loop (so101_direct_teleoperation.py lines
599-640), restricted to `lock` and `teleoperation_active`: it enters
`with lock:` (line 601), reads the flag into a local (line 602), leaves the
block, and later reads the flag again in
`if not DEBUG_MODE and teleoperation_active:` (line 633) without re-entering
the block. -/
def main_loop_steps : List LockStep :=
  [.acquire, .access .read 602, .release, .access .read 633]

/-- The accesses a step list performs, each tagged with whether the lock was
held (the `with lock:` nesting depth was positive) at that point. -/
def accesses_with_lock_depth : Nat → List LockStep →
    List (AccessKind × Nat × Bool)
  | _, [] => []
  | depth, .acquire :: rest => accesses_with_lock_depth (depth + 1) rest
  | depth, .release :: rest => accesses_with_lock_depth (depth - 1) rest
  | depth, .access kind line :: rest =>
    (kind, line, decide (0 < depth)) :: accesses_with_lock_depth depth rest

/-- Every access either thread's loop body makes to `teleoperation_active`,
tagged with whether `lock` was held.  (The module-level initialisation
`teleoperation_active = True` at line 60 runs before the keyboard thread is
created and is not an access made alongside another thread; lines 621 and 634
read only the local copy taken at line 602.) -/
def teleop_flag_accesses : List (AccessKind × Nat × Bool) :=
  accesses_with_lock_depth 0 keyboard_loop_steps ++
    accesses_with_lock_depth 0 main_loop_steps

/-- Claim C7 as stated: every access to the shared flag by either thread is
performed while holding the shared lock. -/
def all_flag_accesses_locked : Prop :=
  ∀ a ∈ teleop_flag_accesses, a.2.2 = true

instance : Decidable all_flag_accesses_locked := by
  unfold all_flag_accesses_locked; infer_instance

/- ## The percent-move script's safety gate -/

/-- Outcome of a `motors_bus.read(...)` call in move_motors_percent.py: the
value it returned, or the exception path. -/
inductive BusRead where
  | ok (value : Int)
  | err
deriving DecidableEq

/-- `check_joint_limits` (move_motors_percent.py lines 91-122): reads the
present position (on exception: `return False`), rejects a change of more
than 1024 steps, rejects a target outside `[0, 4095]`, then optionally reads
`Present_Load` and rejects a load above 200 (a failed load read is ignored);
otherwise returns True. -/
def check_joint_limits (present_read load_read : BusRead)
    (target_position : Int) : Bool :=
  match present_read with
  | .err => false
  | .ok current_pos =>
    if 1024 < |current_pos - target_position| then false
    else if target_position < 0 ∨ 4095 < target_position then false
    else
      match load_read with
      | .ok current_load => if 200 < current_load then false else true
      | .err => true

/- ## Totality of leader reads -/

/-- Outcome of one `read2ByteTxRx` call in `read_leader_positions`
(so101_direct_teleoperation.py lines 183-202): a successful read of a
position, a completed call whose result is not `COMM_SUCCESS`, or a raised
exception. -/
inductive LeaderRead where
  | success (position : Nat)
  | commError
  | exn
deriving DecidableEq

/-- so101_direct_teleoperation.py line 40: `MOTOR_IDS = list(range(1, 7))`. -/
def MOTOR_IDS : List Nat := List.range' 1 6

/-- `read_leader_positions` (so101_direct_teleoperation.py lines 178-207):
iterates over `MOTOR_IDS` appending the read position on success and the
center value 2048 on a failed result or an exception. -/
def read_leader_positions (read_result : Nat → LeaderRead) : List Nat :=
  MOTOR_IDS.foldl
    (fun positions motor_id =>
      match read_result motor_id with
      | .success position => positions ++ [position]
      | .commError => positions ++ [2048]
      | .exn => positions ++ [2048])
    []

/-- The per-motor entry the loop of `read_leader_positions` appends: the
measured position on success, the center value 2048 otherwise. -/
def leader_entry (r : LeaderRead) : Nat :=
  match r with
  | .success position => position
  | .commError => 2048
  | .exn => 2048

/- ## Helper lemmas -/

/-- Python's `(~total) & 0xFF` on a nonnegative int equals
`0xFF - (total % 256)`: the two checksum idioms of the scripts agree. -/
theorem py_inv_byte_eq (total : Nat) : py_inv_byte total = 255 - total % 256 := by
  unfold py_inv_byte
  omega

/-- Adding the `0xFF - (total % 256)` checksum to the total it covers gives
`0xFF` modulo 256. -/
theorem scs_checksum_sum (total : Nat) :
    (total + scs_checksum total) % 256 = 0xFF := by
  unfold scs_checksum
  omega

/-- `value & 0xFF` is `value % 256`. -/
theorem and_255_eq_mod (value : Nat) : value &&& 255 = value % 256 := by
  have h := Nat.and_pow_two_sub_one_eq_mod value 8
  norm_num at h
  exact h

/-- `value >> 8` is `value / 256`. -/
theorem shiftRight_8_eq_div (value : Nat) : value >>> 8 = value / 256 := by
  have h := Nat.shiftRight_eq_div_pow value 8
  norm_num at h
  exact h

/-- Folding `positions ++ [g motor_id]` over a list of ids maps `g` over the
ids, in order. -/
theorem foldl_append_singleton_eq_map (g : Nat → Nat) :
    ∀ (ids acc : List Nat),
      ids.foldl (fun positions motor_id => positions ++ [g motor_id]) acc =
        acc ++ ids.map g := by
  intro ids
  induction ids with
  | nil => intro acc; simp
  | cons x xs ih => intro acc; simp [List.foldl, ih]

/- ## The claims -/

/-- C1: checksum validity of every constructed packet.  The ping, read-word,
write-byte and write-word packets of the direct-serial scripts all satisfy
`(id + length + instruction + sum(params) + checksum) % 256 = 0xFF`; but
`FollowerArmController.set_position` sums `write_packet[2:-1]` before the
checksum byte is appended, dropping the final parameter byte (the position
high byte), so its packet for motor 1 at position 2048 — `FF FF 01 05 03 2A
00 08 CC` — sums to 7 mod 256 instead of 0xFF.  The claim's property is the
vendor checksum rule; the slice is a slip (compare `write_word` in
direct_reset_follower_motors.py, which includes every parameter byte). -/
theorem C1_checksum_totals :
    (∀ motor_id, checksum_ok (ping_packet motor_id)) ∧
    (∀ motor_id address length, checksum_ok (read_word_packet motor_id address length)) ∧
    (∀ motor_id address value, checksum_ok (write_byte_packet motor_id address value)) ∧
    (∀ motor_id address value, checksum_ok (write_word_packet motor_id address value)) ∧
    set_position_packet 1 2048 = [0xFF, 0xFF, 1, 0x05, 0x03, 42, 0, 8, 204] ∧
    ((set_position_packet 1 2048).drop 2).sum % 256 = 7 ∧
    ¬ checksum_ok (set_position_packet 1 2048) := by
  refine ⟨?_, ?_, ?_, ?_, by decide, by decide, by decide⟩
  · intro id
    simp only [checksum_ok, ping_packet, scs_checksum, List.drop,
      List.sum_cons, List.sum_nil]
    omega
  · intro id a l
    simp only [checksum_ok, read_word_packet, scs_checksum, List.drop,
      List.sum_cons, List.sum_nil]
    omega
  · intro id a v
    simp only [checksum_ok, write_byte_packet, scs_checksum, List.drop,
      List.sum_cons, List.sum_nil]
    omega
  · intro id a v
    simp only [checksum_ok, write_word_packet, scs_checksum, List.drop,
      List.sum_cons, List.sum_nil]
    omega

/-- C2 counterexample: the leader protocol test's success check accepts the
one-byte response `[0x42]` for motor id 1, although that sequence does not
start with `0xFF 0xFF`, has the wrong 3rd byte and is shorter than 6 bytes —
so acceptance there is not equivalent to the claimed criterion. -/
theorem C2_counterexample :
    ¬ (protocol_test_response_success [0x42] = true ↔
        spec_valid_ping_reply [0x42] 1) := by
  decide

/-- C2 (amended): the ping-reply validity check shared by
`direct_motor_ping`, `follower_arm_controller`,
`direct_reset_follower_motors` and `so101_direct_teleoperation` accepts a
byte sequence iff it starts with `0xFF 0xFF`, its 3rd byte equals the queried
id and its length is at least 6; the leader protocol test's simplified
success check instead accepts exactly the non-empty responses. -/
theorem C2_ping_reply_iff :
    (∀ response motor_id,
      ping_reply_valid response motor_id = true ↔
        spec_valid_ping_reply response motor_id) ∧
    (∀ response, protocol_test_response_success response = true ↔
        response ≠ []) := by
  constructor
  · intro response motor_id
    unfold ping_reply_valid spec_valid_ping_reply
    rcases response with _ | ⟨a, _ | ⟨b, _ | ⟨c, rest⟩⟩⟩ <;> simp [List.getD]
    omega
  · intro response
    unfold protocol_test_response_success
    rcases response with _ | ⟨a, t⟩ <;> simp

/-- C3: codec round trip.  Decoding an encoded packet recovers the id, the
instruction and the parameter bytes for every valid triple, and splitting a
position in `[0, 4095]` into `value & 0xFF` and `(value >> 8) & 0xFF` and
reassembling `(value_h << 8) + value_l` yields the position again. -/
theorem C3_codec_roundtrip :
    (∀ motor_id instruction params, valid_fields motor_id instruction params →
      decode (encode motor_id instruction params) =
        some (motor_id, instruction, params)) ∧
    (∀ value : Nat, value ≤ 4095 →
      word_reassemble (word_high value) (word_low value) = value) := by
  constructor
  · intro motor_id instruction params _
    show decode (0xFF :: 0xFF :: motor_id :: (params.length + 2) :: instruction ::
      (params ++ [scs_checksum (motor_id + (params.length + 2) + instruction +
        params.sum)])) = _
    simp only [decode]
    rw [if_pos (by simp)]
    simp
  · intro value hv
    unfold word_reassemble word_high word_low
    rw [and_255_eq_mod, shiftRight_8_eq_div, and_255_eq_mod, Nat.shiftLeft_eq]
    norm_num
    omega

/-- C4: the ping packet for every motor id is exactly the 6 bytes
`[0xFF, 0xFF, id, 0x02, 0x01, 0xFF - ((id + 0x02 + 0x01) % 256)]` — an
instance of the generic encoder with instruction `0x01` and no parameters —
and for motor id 6 it is `FF FF 06 02 01 F6`. -/
theorem C4_ping_packet_bytes :
    (∀ motor_id : Nat, ping_packet motor_id =
      [0xFF, 0xFF, motor_id, 0x02, 0x01,
        0xFF - ((motor_id + 0x02 + 0x01) % 256)]) ∧
    ping_packet 6 = [0xFF, 0xFF, 0x06, 0x02, 0x01, 0xF6] ∧
    (∀ motor_id : Nat, ping_packet motor_id = encode motor_id 0x01 []) := by
  refine ⟨?_, by decide, ?_⟩
  · intro motor_id
    simp [ping_packet, scs_checksum]
  · intro motor_id
    simp [ping_packet, encode, scs_checksum]

/-- C5: every goal position produced by `set_position`'s clamp, by the
teleoperation loop's `(position + offset) % 4096` mapping, or by the SDK
fallback's clamp is in `[0, 4095]`, for every integer position and offset. -/
theorem C5_goal_position_range :
    ∀ position offset : Int,
      (0 ≤ set_position_clamp position ∧ set_position_clamp position ≤ 4095) ∧
      (0 ≤ follower_target position offset ∧
        follower_target position offset ≤ 4095) ∧
      (0 ≤ sdk_safe_position position ∧ sdk_safe_position position ≤ 4095) := by
  intro position offset
  unfold set_position_clamp follower_target sdk_safe_position
  omega

/-- C6: both teleoperation scripts' smoothing constants lie in `(0, 1)`, and
one smoothing step sets each entry to
`alpha * current + (1 - alpha) * smoothed`, which therefore lies between the
previous smoothed value and the current reading. -/
theorem C6_ema_between :
    (0 < alpha_direct ∧ alpha_direct < 1) ∧ (0 < alpha_sdk ∧ alpha_sdk < 1) ∧
    (∀ (alpha : ℚ) (current smoothed : List ℚ) (i : Nat),
      0 < alpha → alpha < 1 → i < (smooth_step alpha current smoothed).length →
      (smooth_step alpha current smoothed).getD i 0 =
        alpha * current.getD i 0 + (1 - alpha) * smoothed.getD i 0 ∧
      min (smoothed.getD i 0) (current.getD i 0) ≤
        (smooth_step alpha current smoothed).getD i 0 ∧
      (smooth_step alpha current smoothed).getD i 0 ≤
        max (smoothed.getD i 0) (current.getD i 0)) := by
  refine ⟨by norm_num [alpha_direct], by norm_num [alpha_sdk], ?_⟩
  intro alpha current smoothed i h0 h1 hi
  have hlen : (smooth_step alpha current smoothed).length =
      min current.length smoothed.length := by
    simp [smooth_step]
  have hc : i < current.length := by omega
  have hs : i < smoothed.length := by omega
  have hv : (smooth_step alpha current smoothed).getD i 0 =
      alpha * current.getD i 0 + (1 - alpha) * smoothed.getD i 0 := by
    rw [List.getD_eq_getElem _ _ hi, List.getD_eq_getElem _ _ hc,
      List.getD_eq_getElem _ _ hs]
    simp [smooth_step]
  refine ⟨hv, ?_, ?_⟩ <;> rw [hv]
  · rcases le_total (smoothed.getD i 0) (current.getD i 0) with h | h
    · rw [min_eq_left h]
      nlinarith [mul_nonneg h0.le (sub_nonneg.mpr h)]
    · rw [min_eq_right h]
      nlinarith [mul_nonneg (sub_nonneg.mpr h1.le) (sub_nonneg.mpr h)]
  · rcases le_total (smoothed.getD i 0) (current.getD i 0) with h | h
    · rw [max_eq_right h]
      nlinarith [mul_nonneg (sub_nonneg.mpr h1.le) (sub_nonneg.mpr h)]
    · rw [max_eq_left h]
      nlinarith [mul_nonneg h0.le (sub_nonneg.mpr h)]

/-- C7 counterexample: not every access to the shared
`teleoperation_active` flag is performed while holding the lock — the main
loop's read in `if not DEBUG_MODE and teleoperation_active:` (line 633 of
so101_direct_teleoperation.py) runs outside every `with lock:` block. -/
theorem C7_counterexample : ¬ all_flag_accesses_locked := by
  decide

/-- C7 (amended): the read at line 633 of so101_direct_teleoperation.py is
made without holding the lock; every other access either thread's loop makes
to the shared flag is performed while holding the lock. -/
theorem C7_lock_guard :
    (AccessKind.read, 633, false) ∈ teleop_flag_accesses ∧
    (∀ a ∈ teleop_flag_accesses, a.2.1 ≠ 633 → a.2.2 = true) := by
  decide

/-- C8: for every motor id the leader protocol test pings (1 through 6), the
"Protocol 1 (Alternative format)" packet — last byte `(~sum) & 0xFF` over
bytes 2 through second-to-last — is byte-for-byte the
"Protocol 0 (Feetech/SCS)" packet with checksum
`0xFF - ((id + 0x02 + 0x01) % 256)`. -/
theorem C8_protocol1_eq_protocol0 :
    ∀ motor_id : Nat, 1 ≤ motor_id → motor_id ≤ 6 →
      protocol1_ping_packet motor_id = ping_packet motor_id := by
  intro motor_id _ _
  simp [protocol1_ping_packet, ping_packet, py_inv_byte_eq, scs_checksum]

/-- Witness for C8 at motor id 3. -/
theorem C8_witness : protocol1_ping_packet 3 = ping_packet 3 :=
  C8_protocol1_eq_protocol0 3 (by norm_num) (by norm_num)

/-- C9: `check_joint_limits` returns True only when the target position lies
in `[0, 4095]` and differs from the just-read present position by at most
1024 steps, and it returns False whenever reading the present position
fails. -/
theorem C9_check_joint_limits_gate :
    (∀ present_read load_read target_position,
      check_joint_limits present_read load_read target_position = true →
        (0 ≤ target_position ∧ target_position ≤ 4095) ∧
        ∃ current_pos, present_read = BusRead.ok current_pos ∧
          |current_pos - target_position| ≤ 1024) ∧
    (∀ load_read target_position,
      check_joint_limits BusRead.err load_read target_position = false) := by
  constructor
  · intro present_read load_read target_position h
    cases present_read with
    | err => exact absurd h (by simp [check_joint_limits])
    | ok current_pos =>
      revert h
      simp only [check_joint_limits]
      split_ifs with h1 h2
      · simp
      · simp
      · push_neg at h1 h2
        cases load_read with
        | ok current_load =>
          show (if 200 < current_load then false else true) = true → _
          split_ifs with h3
          · simp
          · intro
            exact ⟨⟨h2.1, h2.2⟩, current_pos, rfl, h1⟩
        | err =>
          intro
          exact ⟨⟨h2.1, h2.2⟩, current_pos, rfl, h1⟩
  · intro load_read target_position
    rfl

/-- C10: `read_leader_positions` always returns one entry per configured
motor id, in motor-id order — 6 entries — and every failed or raising read
contributes the center value 2048. -/
theorem C10_read_leader_totality :
    ∀ read_result : Nat → LeaderRead,
      read_leader_positions read_result =
        MOTOR_IDS.map (fun motor_id => leader_entry (read_result motor_id)) ∧
      (read_leader_positions read_result).length = 6 := by
  intro read_result
  have hfun : (fun (positions : List Nat) (motor_id : Nat) =>
      match read_result motor_id with
      | LeaderRead.success position => positions ++ [position]
      | LeaderRead.commError => positions ++ [2048]
      | LeaderRead.exn => positions ++ [2048]) =
      fun positions motor_id =>
        positions ++ [leader_entry (read_result motor_id)] := by
    funext positions motor_id
    cases h : read_result motor_id <;> simp [leader_entry, h]
  have h1 : read_leader_positions read_result =
      MOTOR_IDS.map (fun motor_id => leader_entry (read_result motor_id)) := by
    unfold read_leader_positions
    rw [hfun, foldl_append_singleton_eq_map]
    simp
  exact ⟨h1, by rw [h1]; simp [MOTOR_IDS]⟩

end LeRobot
